import Mathlib

/-!
Shallow embedding of the excel-mcp-server TypeScript sources.

The repository is a thin MCP tool layer over ExcelJS.  The parts embedded
here are the ones the claims are about:

* `src/utils/cellUtils.ts` — cell/range address codec
  (`cellRefToCoordinate`, `columnLetterToNumber`, `numberToColumnLetter`,
  `parseRange`, `parseCellOrRange`);
* `src/utils/fileUtils.ts` — path resolution and the workbook cache
  (`getExcelPath`, `loadWorkbook`, `getWorksheet`);
* `src/handlers/dataHandlers.ts` — the data-reading loop of
  `handleReadExcel`;
* `src/handlers/rangeHandlers.ts` — `handleValidateExcelRange`;
* `src/handlers/pivotHandlers.ts` — `handleCreatePivotTable` and
  `validateAggFunc`.

Modelling conventions:

* JS numbers are modelled as `Int` (all arithmetic in these functions is
  exact integer arithmetic, far below the 2^53 exactness bound);
* thrown `McpError`s become `Except McpError`; the outer `try/catch`
  blocks of the handlers rethrow `McpError` unchanged and only rewrap
  foreign exceptions, which the model has none of, so they are identity
  here;
* `ExcelJS.Workbook` is modelled as a list of worksheets; a worksheet is a
  name, a total cell map `Int → Int → Option Value` (`getCell(row,col).value`,
  with `none` for null/undefined) and the reported `rowCount`/`columnCount`;
* the mutable module-level workbook cache and the filesystem are passed
  explicitly (`WorkbookCache`, `Disk`) and returned where the source
  mutates them;
* JS string/array primitives (`match`, `split`, `includes`, `join`,
  truthiness, `String(v)` conversion) are embedded as the small helper
  functions below, each documented with the JS primitive it models.
-/

namespace ExcelMcp

/-- Cell values as they occur in this development: ExcelJS `cell.value`
restricted to the scalar shapes the claims exercise (strings, numbers,
booleans); absence (null/undefined) is `Option.none` at use sites. -/
inductive Value where
  | str (s : String)
  | num (n : Int)
  | bool (b : Bool)
deriving DecidableEq, Repr

/-- JS truthiness of a cell value: `""`, `0` and `false` are falsy. -/
def jsTruthy : Value → Bool
  | .str s => s ≠ ""
  | .num n => n ≠ 0
  | .bool b => b

/-- JS `String(v)` conversion for the scalar values above. -/
def jsString : Value → String
  | .str s => s
  | .num n => toString n
  | .bool b => if b then "true" else "false"

/-- JS truthiness of an optional string (`undefined` and `""` are falsy). -/
def jsStrTruthy : Option String → Bool
  | some s => s ≠ ""
  | none => false

/-- JS `x || d` for a string `x` that may be absent, as in the default
message fallback of `validateAggFunc.error` and in the `(none)` fallback
for the joined `columns` list. -/
def jsOrString (x : Option String) (d : String) : String :=
  match x with
  | some s => if s = "" then d else s
  | none => d

/-- JS `n || d` for a number field such as `worksheet.rowCount || 1048576`
(`0` is falsy). -/
def jsOrNat (n d : Nat) : Nat :=
  if n = 0 then d else n

/-- The integers `a, a+1, …, b` in order; empty when `b < a`.  This is the
iteration sequence of a JS loop `for (let i = a; i <= b; i++)`. -/
def intRange (a b : Int) : List Int :=
  (List.range (b - a + 1).toNat).map (fun i => a + i)

/-- JS `String.prototype.split(sep)` for a one-character separator, on the
character list of the string: all fragments, keeping empty ones. -/
def splitOnChar (sep : Char) : List Char → List (List Char)
  | [] => [[]]
  | c :: rest =>
    match splitOnChar sep rest with
    | [] => []
    | h :: t => if c = sep then [] :: h :: t else (c :: h) :: t

/-- JS `string.match(/p+/)` for a character class `p`: the first maximal run
of characters satisfying `p`, or `none` when no character satisfies it. -/
def firstRun (p : Char → Bool) : List Char → Option (List Char)
  | [] => none
  | c :: rest => if p c then some (c :: rest.takeWhile p) else firstRun p rest

/-- JS `parseInt(s, 10)` on a nonempty all-digit string. -/
def parseIntDigits (ds : List Char) : Nat :=
  ds.foldl (fun a c => a * 10 + (c.toNat - 48)) 0

/-- JS object property assignment `obj[k] = v` on an insertion-ordered
association list: an existing key keeps its position and gets the new
value, a new key is appended. -/
def jsSet (obj : List (String × Value)) (k : String) (v : Value) : List (String × Value) :=
  if obj.any (fun p => p.1 = k) then
    obj.map (fun p => if p.1 = k then (k, v) else p)
  else
    obj ++ [(k, v)]

/-- Error codes of `McpError` from `@modelcontextprotocol/sdk/types.js`
(the JSON-RPC codes; this enum has no NotFound member). -/
inductive ErrorCode where
  | parseError
  | invalidRequest
  | methodNotFound
  | invalidParams
  | internalError
deriving DecidableEq, Repr

/-- The numeric value of each SDK error code. -/
def errorCodeNumber : ErrorCode → Int
  | .parseError => -32700
  | .invalidRequest => -32600
  | .methodNotFound => -32601
  | .invalidParams => -32602
  | .internalError => -32603

/-- `McpError` from the MCP SDK: an error code plus the raw message passed
to the constructor. -/
structure McpError where
  code : ErrorCode
  message : String
deriving DecidableEq, Repr

/-- The `Error.message` of a constructed `McpError`: the SDK constructor
prefixes the raw message with `MCP error <code>: `. -/
def jsErrorMessage (e : McpError) : String :=
  "MCP error " ++ toString (errorCodeNumber e.code) ++ ": " ++ e.message

/-- `CellCoordinate` from `src/types/index.ts`. -/
structure CellCoordinate where
  row : Int
  col : Int
deriving DecidableEq, Repr

/-- `CellRange` from `src/types/index.ts` (field order as in the object
literals built by `parseRange`). -/
structure CellRange where
  startCol : Int
  startRow : Int
  endCol : Int
  endRow : Int
deriving DecidableEq, Repr

/-- One entry of `ToolResponse.content` from `src/types/index.ts`
(`{type: string, text: string}`; the code always uses type `"text"`). -/
structure ContentItem where
  type : String
  text : String
deriving DecidableEq, Repr

/-- `ToolResponse` from `src/types/index.ts`: a content list plus the
optional `isError` flag (never set by the embedded handlers). -/
structure ToolResponse where
  content : List ContentItem
  isError : Option Bool := none
deriving DecidableEq, Repr

/-- `columnLetterToNumber` from `src/utils/cellUtils.ts`: uppercase the
string (`Char.toUpper` is exactly the ASCII case map that `toUpperCase`
in the source applies to these characters), then fold
`column = column * 26 + (charCodeAt(i) - 64)` over the characters. -/
def columnLetterToNumber (letters : String) : Int :=
  (letters.toList.map Char.toUpper).foldl
    (fun column c => column * 26 + ((c.toNat : Int) - 64)) 0

/-- The `while (num > 0)` loop of `numberToColumnLetter` from
`src/utils/cellUtils.ts`, on the loop variable.  Inside the loop the
variable is always a nonnegative integer (`num = (num - modulo) / 26` is an
exact division of a positive number), so the loop is modelled on `Nat`. -/
def numberToColumnLetterAux (num : Nat) : List Char :=
  if num = 0 then []
  else
    let modulo := (num - 1) % 26
    numberToColumnLetterAux ((num - modulo) / 26) ++ [Char.ofNat (65 + modulo)]
termination_by num
decreasing_by omega

/-- `numberToColumnLetter` from `src/utils/cellUtils.ts`.  For `num ≤ 0` the
loop body never runs and the empty string is returned, which is what
the clamping of `Int.toNat` gives. -/
def numberToColumnLetter (num : Int) : String :=
  String.mk (numberToColumnLetterAux num.toNat)

/-- `cellRefToCoordinate` from `src/utils/cellUtils.ts`: first run of
`[A-Za-z]+`, first run of `\d+`; throws InvalidParams when either regex has
no match; otherwise the column comes from the letter run and the row from
`parseInt` of the digit run. -/
def cellRefToCoordinate (cellRef : String) : Except McpError CellCoordinate :=
  match firstRun Char.isAlpha cellRef.toList, firstRun Char.isDigit cellRef.toList with
  | some colMatch, some rowMatch =>
    .ok { row := (parseIntDigits rowMatch : Int),
          col := columnLetterToNumber (String.mk colMatch) }
  | _, _ => .error ⟨.invalidParams, "無効なセル参照形式: " ++ cellRef⟩

/-- `parseRange` from `src/utils/cellUtils.ts`: split on `:`; exactly two
fragments required; both fragments parsed as cell references; start
coordinates from the left fragment, end coordinates from the right one,
with no normalization of reversed rectangles. -/
def parseRange (range : String) : Except McpError CellRange :=
  match splitOnChar ':' range.toList with
  | [startCell, endCell] =>
    match cellRefToCoordinate (String.mk startCell) with
    | .error e => .error e
    | .ok startCoord =>
      match cellRefToCoordinate (String.mk endCell) with
      | .error e => .error e
      | .ok endCoord =>
        .ok { startCol := startCoord.col, startRow := startCoord.row,
              endCol := endCoord.col, endRow := endCoord.row }
  | _ => .error ⟨.invalidParams, "無効な範囲形式。\"A1:C10\"のような形式が必要です"⟩

/-- `parseCellOrRange` from `src/utils/cellUtils.ts`: with a `:` delegate to
`parseRange`, otherwise parse a single cell and return the degenerate
range. -/
def parseCellOrRange (cellOrRange : String) : Except McpError CellRange :=
  if cellOrRange.toList.contains ':' then parseRange cellOrRange
  else
    match cellRefToCoordinate cellOrRange with
    | .error e => .error e
    | .ok coord =>
      .ok { startCol := coord.col, startRow := coord.row,
            endCol := coord.col, endRow := coord.row }

/-- A worksheet: name, cell map (`getCell(row, col).value`, `none` for
null/undefined) and the reported `rowCount`/`columnCount`. -/
structure Worksheet where
  name : String
  cells : Int → Int → Option Value
  rowCount : Nat
  columnCount : Nat

/-- An in-memory `ExcelJS.Workbook`: its worksheets in document order. -/
structure Workbook where
  worksheets : List Worksheet

/-- `WorkbookCache` from `src/types/index.ts`
(`Record<string, ExcelJS.Workbook>`), as a map from path to handle. -/
def WorkbookCache : Type := String → Option Workbook

/-- The filesystem as the workbook each existing path would parse to;
`none` means `fs.existsSync` is false. -/
def Disk : Type := String → Option Workbook

/-- Store a workbook in the cache (`workbookCache[filePath] = workbook`). -/
def updateCache (cache : WorkbookCache) (filePath : String) (wb : Workbook) : WorkbookCache :=
  fun q => if q = filePath then some wb else cache q

/-- `workbook.xlsx.writeFile(fullPath)`: overwrite the path with the
in-memory workbook. -/
def writeFile (disk : Disk) (filePath : String) (wb : Workbook) : Disk :=
  fun q => if q = filePath then some wb else disk q

/-- `getExcelPath` from `src/utils/fileUtils.ts`: absolute paths are
returned as-is, otherwise the name is joined under the configured base
directory (`EXCEL_FILES_PATH`, passed here explicitly; `path.join` is
modelled as separator concatenation, which is all the claims need). -/
def getExcelPath (basePath : String) (filename : String) : String :=
  if filename.toList.head? = some '/' then filename
  else basePath ++ "/" ++ filename

/-- `loadWorkbook` from `src/utils/fileUtils.ts`: a cached handle (the
`if (workbookCache[filePath])` truthiness test — workbook objects are
always truthy) is returned as-is; otherwise a missing file raises
`McpError(ErrorCode.InvalidParams, "File … not found")`, and an existing
file is parsed and stored in the cache.  The cache mutation is modelled by
returning the updated cache alongside the workbook. -/
def loadWorkbook (filePath : String) (workbookCache : WorkbookCache) (disk : Disk) :
    Except McpError (Workbook × WorkbookCache) :=
  match workbookCache filePath with
  | some wb => .ok (wb, workbookCache)
  | none =>
    match disk filePath with
    | none => .error ⟨.invalidParams, "File " ++ filePath ++ " not found"⟩
    | some workbook => .ok (workbook, updateCache workbookCache filePath workbook)

/-- `getWorksheet` from `src/utils/fileUtils.ts`:
`sheetName ? workbook.getWorksheet(sheetName) : workbook.worksheets[0]`
(string truthiness: an empty name also falls back to the first sheet),
throwing InvalidParams when the result is undefined. -/
def getWorksheet (workbook : Workbook) (sheetName : Option String) : Except McpError Worksheet :=
  let worksheet :=
    if jsStrTruthy sheetName then
      workbook.worksheets.find? (fun ws => ws.name = sheetName.getD "")
    else
      workbook.worksheets.head?
  match worksheet with
  | some ws => .ok ws
  | none =>
    .error ⟨.invalidParams, "Sheet " ++ (sheetName.getD "(first sheet)") ++ " not found"⟩

/-- The header row read by `handleReadExcel`
(`src/handlers/dataHandlers.ts` lines 48–52): `cell.value` of row
`startRow` for each column of the range. -/
def readHeaders (worksheet : Worksheet) (startRow startCol endCol : Int) : List (Option Value) :=
  (intRange startCol endCol).map (fun col => worksheet.cells startRow col)

/-- The header key `handleReadExcel` uses for a column: the stringified
header value when that value is truthy, else the synthesized label
`Column<N>` with `N = col - startCol + 1`; the header is read from
`headers[col - startCol]` (an out-of-range index yields undefined, hence
falsy). -/
def headerKeyFor (headers : List (Option Value)) (startCol col : Int) : String :=
  match headers.getD (col - startCol).toNat none with
  | some h =>
    if jsTruthy h then jsString h else "Column" ++ toString (col - startCol + 1)
  | none => "Column" ++ toString (col - startCol + 1)

/-- The data-collection loop of `handleReadExcel`
(`src/handlers/dataHandlers.ts` lines 44–74): collect the header row, then
for each subsequent row build `rowData` by assigning
`rowData[headerKey] = cell.value` for every non-null cell while tracking
`hasData`, and push `rowData` only when `hasData` is set. -/
def readRangeData (worksheet : Worksheet) (startRow startCol endRow endCol : Int) :
    List (List (String × Value)) :=
  let headers := readHeaders worksheet startRow startCol endCol
  (intRange (startRow + 1) endRow).foldl
    (fun data row =>
      let rowAcc :=
        (intRange startCol endCol).foldl
          (fun (acc : List (String × Value) × Bool) col =>
            match worksheet.cells row col with
            | some v => (jsSet acc.1 (headerKeyFor headers startCol col) v, true)
            | none => acc)
          ([], false)
      if rowAcc.2 then data ++ [rowAcc.1] else data)
    []

/-- The literal reading claim C4 gives of the header rule: the header label is the
stringified header value, and a `Column<N>` label is synthesized only when
the header cell is empty (null/undefined) — not for falsy values such as
`0` or `""`.  Identical to `readRangeData` except for this label rule; used
to state the claim and exhibit where the code diverges from it. -/
def headerKeyForSpecC4 (headers : List (Option Value)) (startCol col : Int) : String :=
  match headers.getD (col - startCol).toNat none with
  | some h => jsString h
  | none => "Column" ++ toString (col - startCol + 1)

/-- The read loop as claim C4 states it (header labels per
`headerKeyForSpecC4`, everything else as the code). -/
def readRangeDataSpecC4 (worksheet : Worksheet) (startRow startCol endRow endCol : Int) :
    List (List (String × Value)) :=
  let headers := readHeaders worksheet startRow startCol endCol
  (intRange (startRow + 1) endRow).foldl
    (fun data row =>
      let rowAcc :=
        (intRange startCol endCol).foldl
          (fun (acc : List (String × Value) × Bool) col =>
            match worksheet.cells row col with
            | some v => (jsSet acc.1 (headerKeyForSpecC4 headers startCol col) v, true)
            | none => acc)
          ([], false)
      if rowAcc.2 then data ++ [rowAcc.1] else data)
    []

/-- The row object `handleReadExcel` produces for one data row, described
directly (no `hasData` flag): fold over the columns, assigning the value of
every non-null cell under its header key. -/
def readRowObject (worksheet : Worksheet) (startRow startCol endCol row : Int) :
    List (String × Value) :=
  (intRange startCol endCol).foldl
    (fun obj col =>
      match worksheet.cells row col with
      | some v => jsSet obj (headerKeyFor (readHeaders worksheet startRow startCol endCol) startCol col) v
      | none => obj)
    []

/-- Whether a data row has at least one non-null cell in the range. -/
def rowHasData (worksheet : Worksheet) (startCol endCol row : Int) : Bool :=
  (intRange startCol endCol).any (fun col => (worksheet.cells row col).isSome)

/-- `ValidateExcelRangeArgs` from `src/types/index.ts`. -/
structure ValidateExcelRangeArgs where
  filePath : String
  sheetName : Option String := none
  startCell : String
  endCell : Option String := none

/-- The range-parsing step of `handleValidateExcelRange`
(`src/handlers/rangeHandlers.ts` lines 196–210): when `endCell` is truthy,
parse `startCell ++ ":" ++ endCell` as a cell or range, otherwise parse
`startCell` alone. -/
def validateRangeParse (startCell : String) (endCell : Option String) :
    Except McpError CellRange :=
  if jsStrTruthy endCell then parseCellOrRange (startCell ++ ":" ++ endCell.getD "")
  else parseCellOrRange startCell

/-- The cell-counting loops of `handleValidateExcelRange`
(`src/handlers/rangeHandlers.ts` lines 226–237): total cell count and
non-empty cell count over the parsed rectangle. -/
def validateCellCounts (worksheet : Worksheet) (range : CellRange) : Nat × Nat :=
  (intRange range.startRow range.endRow).foldl
    (fun counts row =>
      (intRange range.startCol range.endCol).foldl
        (fun (counts : Nat × Nat) col =>
          if (worksheet.cells row col).isSome then (counts.1 + 1, counts.2 + 1)
          else (counts.1 + 1, counts.2))
        counts)
    (0, 0)

/-- The optional `:endCell` fragment of the success message of
`handleValidateExcelRange` (JS truthiness: absent or empty `endCell`
contributes nothing). -/
def endCellSuffix (endCell : Option String) : String :=
  if jsStrTruthy endCell then ":" ++ endCell.getD "" else ""

/-- `handleValidateExcelRange` from `src/handlers/rangeHandlers.ts`: load
the workbook and worksheet (typed errors propagate), soft-fail with a
normal text response when range parsing throws, report a boundary failure
as a normal text response, otherwise report the cell counts.  The cache
reference is threaded through because `loadWorkbook` can populate it. -/
def handleValidateExcelRange (basePath : String) (args : ValidateExcelRangeArgs)
    (workbookCache : WorkbookCache) (disk : Disk) :
    Except McpError (ToolResponse × WorkbookCache) :=
  let fullPath := getExcelPath basePath args.filePath
  match loadWorkbook fullPath workbookCache disk with
  | .error e => .error e
  | .ok (workbook, cache₂) =>
    match getWorksheet workbook args.sheetName with
    | .error e => .error e
    | .ok worksheet =>
      match validateRangeParse args.startCell args.endCell with
      | .error err =>
        .ok ({ content := [⟨"text", "Invalid range format: " ++ jsErrorMessage err⟩] }, cache₂)
      | .ok range =>
        let maxRow : Int := (jsOrNat worksheet.rowCount 1048576 : Nat)
        let maxCol : Int := (jsOrNat worksheet.columnCount 16384 : Nat)
        if range.startRow < 1 || range.startCol < 1 ||
            range.endRow > maxRow || range.endCol > maxCol then
          .ok ({ content := [⟨"text",
            "Range is outside worksheet boundaries: rows(" ++ toString range.startRow ++
            "-" ++ toString range.endRow ++ "), columns(" ++ toString range.startCol ++
            "-" ++ toString range.endCol ++ ")"⟩] }, cache₂)
        else
          let counts := validateCellCounts worksheet range
          .ok ({ content := [⟨"text",
            "Range " ++ args.startCell ++ endCellSuffix args.endCell ++
            " is valid. Cell count: " ++ toString counts.1 ++
            ", Cells with data: " ++ toString counts.2⟩] }, cache₂)

/-- `CreatePivotTableArgs` from `src/types/index.ts`. -/
structure CreatePivotTableArgs where
  filePath : String
  sheetName : Option String := none
  dataRange : String
  rows : List String
  values : List String
  columns : Option (List String) := none
  aggFunc : Option String := none

/-- The result object of `validateAggFunc`
(`{valid: boolean; func?: string; error?: string}`). -/
structure AggFuncResult where
  valid : Bool
  func : Option String := none
  error : Option String := none
deriving DecidableEq, Repr

/-- The `validFuncs` list of `validateAggFunc`
(`src/handlers/pivotHandlers.ts`). -/
def validFuncs : List String :=
  ["sum", "count", "average", "max", "min", "product", "countNums",
   "stdDev", "stdDevp", "var", "varp"]

/-- The alias table of `validateAggFunc`. -/
def aggFuncMap : List (String × String) :=
  [("mean", "average"), ("avg", "average"), ("total", "sum"), ("add", "sum"),
   ("maximum", "max"), ("minimum", "min"), ("multiply", "product")]

/-- JS `s.toLowerCase()` restricted to its ASCII case map (`Char.toLower`),
which is all it does on the inputs handled here. -/
def jsToLowerCase (s : String) : String :=
  String.mk (s.toList.map Char.toLower)

/-- JS `a.includes(b)` on strings: substring containment. -/
def jsIncludesStr (a b : String) : Bool :=
  decide (b.toList <:+: a.toList)

/-- `validateAggFunc` from `src/handlers/pivotHandlers.ts`: lowercase the
argument; accept an exact member of `validFuncs`; otherwise the first
`validFuncs` entry contained as a substring; otherwise an alias from the
map; otherwise invalid with the explanatory message. -/
def validateAggFunc (aggFunc : String) : AggFuncResult :=
  let lowerFunc := jsToLowerCase aggFunc
  if validFuncs.contains lowerFunc then
    { valid := true, func := some lowerFunc }
  else
    match validFuncs.find? (fun func => jsIncludesStr lowerFunc func) with
    | some func => { valid := true, func := some func }
    | none =>
      match (aggFuncMap.find? (fun p => p.1 = lowerFunc)).map Prod.snd with
      | some f => { valid := true, func := some f }
      | none =>
        { valid := false,
          error := some ("Aggregation function \"" ++ aggFunc ++
            "\" is invalid. Valid functions: " ++ String.intercalate ", " validFuncs) }

/-- The success message of `handleCreatePivotTable`, echoing the arguments
and the resolved aggregation function
(`validAggFunc.func` is interpolated; it is always set on the valid path). -/
def pivotSuccessText (args : CreatePivotTableArgs) (validAggFunc : AggFuncResult) : String :=
  "Pivot table created successfully (Note: The current implementation does not actually create a pivot table)\n" ++
  "- Data range: " ++ args.dataRange ++ "\n" ++
  "- Rows: " ++ String.intercalate ", " args.rows ++ "\n" ++
  "- Columns: " ++ jsOrString (args.columns.map (String.intercalate ", ")) "(none)" ++ "\n" ++
  "- Values: " ++ String.intercalate ", " args.values ++ "\n" ++
  "- Aggregation function: " ++ (validAggFunc.func.getD "undefined")

/-- `handleCreatePivotTable` from `src/handlers/pivotHandlers.ts`: load the
workbook and worksheet, parse the data range, validate the aggregation
function — and then, as the source comments state, build no pivot table at
all: persist the workbook as loaded and return the success message echoing
the arguments. -/
def handleCreatePivotTable (basePath : String) (args : CreatePivotTableArgs)
    (workbookCache : WorkbookCache) (disk : Disk) :
    Except McpError (ToolResponse × WorkbookCache × Disk) :=
  let aggFunc := args.aggFunc.getD "sum"
  let fullPath := getExcelPath basePath args.filePath
  match loadWorkbook fullPath workbookCache disk with
  | .error e => .error e
  | .ok (workbook, cache₂) =>
    match getWorksheet workbook args.sheetName with
    | .error e => .error e
    | .ok _worksheet =>
      match parseCellOrRange args.dataRange with
      | .error e => .error e
      | .ok _range =>
        let validAggFunc := validateAggFunc aggFunc
        if validAggFunc.valid = false then
          .error ⟨.invalidParams, jsOrString validAggFunc.error "Invalid aggregation function"⟩
        else
          .ok ({ content := [⟨"text", pivotSuccessText args validAggFunc⟩] },
               cache₂, writeFile disk fullPath workbook)

/-- Nat-valued version of the `columnLetterToNumber` fold, used by the
round-trip proofs (on all-uppercase inputs the `Int` fold never goes
negative and agrees with this one). -/
def colNumNat (xs : List Char) (a : Nat) : Nat :=
  xs.foldl (fun acc c => acc * 26 + (c.toNat - 64)) a

/-! Concrete objects used by witnesses and counterexamples. -/

/-- A worksheet with no data, reporting 3×3 dimensions. -/
def sheetA : Worksheet :=
  { name := "Sheet1", cells := fun _ _ => none, rowCount := 3, columnCount := 3 }

/-- A workbook containing only `sheetA`. -/
def wbA : Workbook := { worksheets := [sheetA] }

/-- A cache that holds `wbA` under every path. -/
def cacheA : WorkbookCache := fun _ => some wbA

/-- An empty cache. -/
def cacheEmpty : WorkbookCache := fun _ => none

/-- An empty filesystem. -/
def diskEmpty : Disk := fun _ => none

/-- The worksheet of the counterexample to claim C4: the header cell A1 holds
the number 0 (a non-empty cell that is falsy in JS) and the data cell A2
holds 5. -/
def sheetC4 : Worksheet :=
  { name := "Sheet1",
    cells := fun r c =>
      if r = 1 ∧ c = 1 then some (Value.num 0)
      else if r = 2 ∧ c = 1 then some (Value.num 5)
      else none,
    rowCount := 2, columnCount := 1 }

/-- A worksheet whose cells are all empty. -/
def sheetEmpty : Worksheet :=
  { name := "Sheet1", cells := fun _ _ => none, rowCount := 0, columnCount := 0 }

deriving instance DecidableEq for Except

/-! Helper lemmas. -/

/-- `Char.ofNat` on a scalar value below the surrogate range recovers the
code point. -/
theorem char_toNat_ofNat {n : Nat} (h : n < 55296) : (Char.ofNat n).toNat = n := by
  have hv : n.isValidChar := Or.inl h
  rw [Char.ofNat, dif_pos hv]
  simp [Char.ofNatAux, Char.toNat, UInt32.toNat, BitVec.toNat_ofNatLt]

/-- `Char.toUpper` fixes every character at or below `Z`. -/
theorem toUpper_eq_self {c : Char} (h : c.toNat ≤ 90) : c.toUpper = c := by
  rw [Char.toUpper, if_neg]
  omega

/-- On a list of uppercase letters, the `Int` fold of `columnLetterToNumber`
computes `colNumNat`. -/
theorem foldInt_eq_colNumNat (xs : List Char)
    (h : ∀ c ∈ xs, 65 ≤ c.toNat ∧ c.toNat ≤ 90) (a : Nat) :
    (xs.map Char.toUpper).foldl (fun column c => column * 26 + ((c.toNat : Int) - 64))
      (a : Int) = (colNumNat xs a : Int) := by
  induction xs generalizing a with
  | nil => simp [colNumNat]
  | cons c rest ih =>
    have hc := h c (by simp)
    simp only [List.map_cons, List.foldl_cons, colNumNat]
    rw [toUpper_eq_self hc.2]
    have hcast : (a : Int) * 26 + ((c.toNat : Int) - 64)
        = ((a * 26 + (c.toNat - 64) : Nat) : Int) := by omega
    rw [hcast]
    exact ih (fun x hx => h x (by simp [hx])) _

/-- `colNumNat` over a snoc consumes the last letter as the least
significant digit. -/
theorem colNumNat_append (xs : List Char) (c : Char) (a : Nat) :
    colNumNat (xs ++ [c]) a = colNumNat xs a * 26 + (c.toNat - 64) := by
  simp [colNumNat, List.foldl_append]

/-- All characters emitted by the `numberToColumnLetter` loop are uppercase
letters. -/
theorem aux_chars_bound (n : Nat) :
    ∀ c ∈ numberToColumnLetterAux n, 65 ≤ c.toNat ∧ c.toNat ≤ 90 := by
  induction n using Nat.strong_induction_on with
  | _ n ih =>
    by_cases hn : n = 0
    · subst hn
      simp [numberToColumnLetterAux]
    · rw [numberToColumnLetterAux, if_neg hn]
      intro c hc
      simp only [List.mem_append, List.mem_singleton] at hc
      rcases hc with hc | hc
      · exact ih _ (by omega) c hc
      · subst hc
        rw [char_toNat_ofNat (by omega)]
        omega

/-- Reading back the digits produced by the `numberToColumnLetter` loop
recovers the number (`0` gives the empty digit list). -/
theorem colNumNat_aux (n : Nat) :
    colNumNat (numberToColumnLetterAux n) 0 = n := by
  induction n using Nat.strong_induction_on with
  | _ n ih =>
    by_cases hn : n = 0
    · subst hn
      simp [numberToColumnLetterAux, colNumNat]
    · rw [numberToColumnLetterAux, if_neg hn]
      simp only [colNumNat_append]
      rw [ih _ (by omega), char_toNat_ofNat (by omega)]
      omega

/-- One unfolding of the `numberToColumnLetter` loop on `v * 26 + w` with a
digit value `1 ≤ w ≤ 26`: emit the digit and continue with `v`. -/
theorem aux_step (v w : Nat) (h1 : 1 ≤ w) (h2 : w ≤ 26) :
    numberToColumnLetterAux (v * 26 + w)
      = numberToColumnLetterAux v ++ [Char.ofNat (64 + w)] := by
  rw [numberToColumnLetterAux, if_neg (by omega)]
  have hm : (v * 26 + w - 1) % 26 = w - 1 := by omega
  simp only [hm]
  have hq : (v * 26 + w - (w - 1)) / 26 = v := by omega
  rw [hq]
  have hc : 65 + (w - 1) = 64 + w := by omega
  rw [hc]

/-- The loop is a left inverse of the letters-to-number fold on uppercase
strings. -/
theorem aux_colNumNat (xs : List Char)
    (h : ∀ c ∈ xs, 65 ≤ c.toNat ∧ c.toNat ≤ 90) :
    numberToColumnLetterAux (colNumNat xs 0) = xs := by
  induction xs using List.reverseRecOn with
  | nil => simp [colNumNat, numberToColumnLetterAux]
  | append_singleton xs c ih =>
    have hc := h c (by simp)
    rw [colNumNat_append, aux_step _ _ (by omega) (by omega)]
    rw [ih (fun x hx => h x (by simp [hx]))]
    have hcv : 64 + (c.toNat - 64) = c.toNat := by omega
    rw [hcv, Char.ofNat_toNat]

/-- Rebuilding a string from its character list is the identity. -/
theorem string_mk_toList (s : String) : String.mk s.toList = s := by
  cases s
  rfl

/-- `splitOnChar` never returns an empty fragment list. -/
theorem splitOnChar_ne_nil (sep : Char) (xs : List Char) : splitOnChar sep xs ≠ [] := by
  induction xs with
  | nil => simp [splitOnChar]
  | cons c rest ih =>
    rw [splitOnChar]
    cases h : splitOnChar sep rest with
    | nil => exact absurd h ih
    | cons hh tt => by_cases hc : c = sep <;> simp [hc]

/-- Splitting a separator-free string yields a single fragment. -/
theorem splitOnChar_no_sep (sep : Char) (xs : List Char) (h : sep ∉ xs) :
    splitOnChar sep xs = [xs] := by
  induction xs with
  | nil => rfl
  | cons c rest ih =>
    have hc : ¬(c = sep) := fun hc => h (hc ▸ List.mem_cons_self c rest)
    rw [splitOnChar, ih (fun hm => h (List.mem_cons_of_mem _ hm))]
    simp [hc]

/-- Splitting at the first separator: a separator-free prefix becomes the
first fragment. -/
theorem splitOnChar_append (sep : Char) (a b : List Char) (ha : sep ∉ a) :
    splitOnChar sep (a ++ sep :: b) = a :: splitOnChar sep b := by
  induction a with
  | nil =>
    rw [List.nil_append, splitOnChar]
    cases h : splitOnChar sep b with
    | nil => exact absurd h (splitOnChar_ne_nil sep b)
    | cons hh tt => simp
  | cons c a₂ ih =>
    have hc : ¬(c = sep) := fun hc => ha (hc ▸ List.mem_cons_self c a₂)
    have ha₂ : sep ∉ a₂ := fun hm => ha (List.mem_cons_of_mem _ hm)
    rw [List.cons_append, splitOnChar, ih ha₂]
    simp [hc]

/-- `firstRun` finds nothing exactly when no character matches. -/
theorem firstRun_eq_none_iff (p : Char → Bool) (xs : List Char) :
    firstRun p xs = none ↔ ∀ c ∈ xs, ¬p c := by
  induction xs with
  | nil => simp [firstRun]
  | cons c rest ih =>
    by_cases hc : p c
    · simp [firstRun, hc]
    · simp [firstRun, hc, ih]

/-- Claim C2: for every integer `n ≥ 1`,
`columnLetterToNumber (numberToColumnLetter n) = n`, and the encoding takes
1 to "A", 26 to "Z", 27 to "AA", 702 to "ZZ" and 703 to "AAA" (bijective
base-26 with digits A=1 … Z=26 and no zero digit). -/
theorem claim_c2 (n : Int) (h : 1 ≤ n) :
    columnLetterToNumber (numberToColumnLetter n) = n ∧
    numberToColumnLetter 1 = "A" ∧
    numberToColumnLetter 26 = "Z" ∧
    numberToColumnLetter 27 = "AA" ∧
    numberToColumnLetter 702 = "ZZ" ∧
    numberToColumnLetter 703 = "AAA" := by
  refine ⟨?_, ?_, ?_, ?_, ?_, ?_⟩
  · rw [numberToColumnLetter, columnLetterToNumber]
    have hl : (String.mk (numberToColumnLetterAux n.toNat)).toList
        = numberToColumnLetterAux n.toNat := rfl
    rw [hl]
    have h0 : (0 : Int) = ((0 : Nat) : Int) := rfl
    rw [h0, foldInt_eq_colNumNat _ (aux_chars_bound _) 0, colNumNat_aux]
    omega
  · simp [numberToColumnLetter, numberToColumnLetterAux]
  · simp [numberToColumnLetter, numberToColumnLetterAux]
  · simp [numberToColumnLetter, numberToColumnLetterAux]
  · simp [numberToColumnLetter, numberToColumnLetterAux]
  · simp [numberToColumnLetter, numberToColumnLetterAux]

/-- Witness for claim C2 at `n = 703`. -/
theorem claim_c2_witness :
    (1 : Int) ≤ 703 ∧ columnLetterToNumber (numberToColumnLetter 703) = 703 :=
  ⟨by decide, (claim_c2 703 (by decide)).1⟩

/-- Claim C7, counterexample: `numberToColumnLetter` does not fail on
inputs below 1 — it returns the empty string (the `while (num > 0)` loop
body never runs), both at `0` and at a negative number. -/
theorem claim_c7_counterexample :
    numberToColumnLetter 0 = "" ∧ numberToColumnLetter (-5) = "" := by
  constructor
  · simp [numberToColumnLetter, numberToColumnLetterAux]
  · simp [numberToColumnLetter, numberToColumnLetterAux]

/-- Claim C7 as amended: for every integer `n < 1`,
`numberToColumnLetter n` returns the empty string; no `InvalidAddress` (or
any other) error is raised. -/
theorem claim_c7_amended (n : Int) (h : n < 1) : numberToColumnLetter n = "" := by
  have h0 : n.toNat = 0 := by omega
  rw [numberToColumnLetter, h0]
  simp [numberToColumnLetterAux]

/-- Witness for the amended claim C7 at `n = -3`. -/
theorem claim_c7_witness : (-3 : Int) < 1 ∧ numberToColumnLetter (-3) = "" :=
  ⟨by decide, claim_c7_amended (-3) (by decide)⟩

/-- Claim C10: on every nonempty string of uppercase letters A–Z (code
points 65–90), `numberToColumnLetter (columnLetterToNumber s) = s`, so the
letters/number maps are mutually inverse on such strings. -/
theorem claim_c10 (s : String) (_h1 : s ≠ "")
    (h2 : ∀ c ∈ s.toList, 65 ≤ c.toNat ∧ c.toNat ≤ 90) :
    numberToColumnLetter (columnLetterToNumber s) = s := by
  rw [columnLetterToNumber]
  have h0 : (0 : Int) = ((0 : Nat) : Int) := rfl
  rw [h0, foldInt_eq_colNumNat _ h2 0]
  rw [numberToColumnLetter]
  have ht : ((colNumNat s.toList 0 : Nat) : Int).toNat = colNumNat s.toList 0 := by omega
  rw [ht, aux_colNumNat _ h2, string_mk_toList]

/-- Witness for claim C10 at `s = "ABZ"`. -/
theorem claim_c10_witness :
    "ABZ" ≠ "" ∧ (∀ c ∈ "ABZ".toList, 65 ≤ c.toNat ∧ c.toNat ≤ 90) ∧
    numberToColumnLetter (columnLetterToNumber "ABZ") = "ABZ" :=
  ⟨by decide, by decide, claim_c10 "ABZ" (by decide) (by decide)⟩

/-- Claim C9: `cellRefToCoordinate` errors exactly when the input has no
ASCII letter or no decimal digit; whenever both a letter run and a digit
run exist, it succeeds with the first letter run as the column and the
first digit run as the row, regardless of their order — so `"12B"` parses
to row 12, column 2, the same coordinate as `"B12"`. -/
theorem claim_c9 :
    (∀ s : String, (∃ e, cellRefToCoordinate s = .error e) ↔
      ((∀ c ∈ s.toList, c.isAlpha = false) ∨ (∀ c ∈ s.toList, c.isDigit = false))) ∧
    (∀ (s : String) (L D : List Char),
      firstRun Char.isAlpha s.toList = some L →
      firstRun Char.isDigit s.toList = some D →
      cellRefToCoordinate s
        = .ok ⟨(parseIntDigits D : Int), columnLetterToNumber (String.mk L)⟩) ∧
    cellRefToCoordinate "12B" = .ok ⟨12, 2⟩ ∧
    cellRefToCoordinate "B12" = .ok ⟨12, 2⟩ := by
  refine ⟨?_, ?_, by decide, by decide⟩
  · intro s
    rw [cellRefToCoordinate]
    cases hA : firstRun Char.isAlpha s.toList with
    | none =>
      have := (firstRun_eq_none_iff Char.isAlpha s.toList).1 hA
      simp only [Bool.not_eq_true] at this
      exact ⟨fun _ => Or.inl this, fun _ => ⟨_, rfl⟩⟩
    | some L =>
      cases hD : firstRun Char.isDigit s.toList with
      | none =>
        have := (firstRun_eq_none_iff Char.isDigit s.toList).1 hD
        simp only [Bool.not_eq_true] at this
        exact ⟨fun _ => Or.inr this, fun _ => ⟨_, rfl⟩⟩
      | some D =>
        constructor
        · rintro ⟨e, he⟩
          exact absurd he (by simp)
        · rintro (hno | hno)
          · have : firstRun Char.isAlpha s.toList = none :=
              (firstRun_eq_none_iff _ _).2 (by simpa using hno)
            rw [this] at hA
            exact absurd hA (by simp)
          · have : firstRun Char.isDigit s.toList = none :=
              (firstRun_eq_none_iff _ _).2 (by simpa using hno)
            rw [this] at hD
            exact absurd hD (by simp)
  · intro s L D hL hD
    rw [cellRefToCoordinate, hL, hD]

/-- Witness for the success branch of claim C9 at `s = "12B"`. -/
theorem claim_c9_witness :
    firstRun Char.isAlpha "12B".toList = some ['B'] ∧
    firstRun Char.isDigit "12B".toList = some ['1', '2'] ∧
    cellRefToCoordinate "12B"
      = .ok ⟨(parseIntDigits ['1', '2'] : Int), columnLetterToNumber (String.mk ['B'])⟩ :=
  ⟨by decide, by decide, (claim_c9.2.1) "12B" ['B'] ['1', '2'] (by decide) (by decide)⟩

/-- Claim C1: when the cache already holds a handle for the path,
`loadWorkbook` returns exactly that handle with the cache unchanged, its
result does not depend on the filesystem at all (no disk read, no
staleness check), and after the cached handle is mutated (modelled as the
cache now mapping the path to the mutated handle) a second load returns
the mutated handle — so two loads of one path within a session share one
handle and see the mutations made by the other. -/
theorem claim_c1 (p : String) (cache : WorkbookCache) (disk : Disk) (wb : Workbook)
    (h : cache p = some wb) :
    loadWorkbook p cache disk = .ok (wb, cache) ∧
    (∀ disk₂ : Disk, loadWorkbook p cache disk₂ = loadWorkbook p cache disk) ∧
    (∀ wb₂ : Workbook,
      loadWorkbook p (updateCache cache p wb₂) disk = .ok (wb₂, updateCache cache p wb₂)) := by
  refine ⟨?_, ?_, ?_⟩
  · rw [loadWorkbook, h]
  · intro disk₂
    rw [loadWorkbook, h, loadWorkbook, h]
  · intro wb₂
    rw [loadWorkbook]
    have hu : updateCache cache p wb₂ p = some wb₂ := by
      rw [updateCache]
      simp
    rw [hu]

/-- Witness for claim C1: a cache holding `wbA` everywhere serves
`"/t.xlsx"` from the cache. -/
theorem claim_c1_witness :
    cacheA "/t.xlsx" = some wbA ∧
    loadWorkbook "/t.xlsx" cacheA diskEmpty = .ok (wbA, cacheA) :=
  ⟨rfl, (claim_c1 "/t.xlsx" cacheA diskEmpty wbA rfl).1⟩

/-- Claim C3, counterexample: the missing-file failure of `loadWorkbook`
carries `ErrorCode.InvalidParams` — the same kind a malformed range string
produces — not a kind reserved for missing files/sheets (the SDK error
enum has no NotFound member at all). -/
theorem claim_c3_counterexample :
    loadWorkbook "/missing.xlsx" cacheEmpty diskEmpty
      = .error ⟨.invalidParams, "File /missing.xlsx not found"⟩ ∧
    parseRange "A1C3"
      = .error ⟨.invalidParams, "無効な範囲形式。\"A1:C10\"のような形式が必要です"⟩ :=
  ⟨rfl, rfl⟩

/-- Claim C3 as amended: for every path neither cached nor on disk,
`loadWorkbook` fails with an `InvalidParams`-coded `McpError` whose message
is "File <path> not found" (the codebase has no separate NotFound error
kind; missing files share `InvalidParams` with malformed arguments). -/
theorem claim_c3_amended (p : String) (cache : WorkbookCache) (disk : Disk)
    (h1 : cache p = none) (h2 : disk p = none) :
    loadWorkbook p cache disk = .error ⟨.invalidParams, "File " ++ p ++ " not found"⟩ := by
  rw [loadWorkbook, h1, h2]

/-- Witness for the amended claim C3 on an empty cache and empty disk. -/
theorem claim_c3_witness :
    cacheEmpty "/nope.xlsx" = none ∧ diskEmpty "/nope.xlsx" = none ∧
    loadWorkbook "/nope.xlsx" cacheEmpty diskEmpty
      = .error ⟨.invalidParams, "File /nope.xlsx not found"⟩ :=
  ⟨rfl, rfl, claim_c3_amended "/nope.xlsx" cacheEmpty diskEmpty rfl rfl⟩

/-- Claim C5: `parseRange` does not normalize reversed ranges — `"C3:A1"`
yields start coordinates from the left address and end coordinates from
the right one (`endRow < startRow`, no swap, no error); in general the
rectangle is assembled positionally from the two parsed addresses; and the
cell-count loops of `validate_excel_range` run zero iterations on such a
rectangle. -/
theorem claim_c5 :
    parseRange "C3:A1" = .ok ⟨3, 3, 1, 1⟩ ∧
    (∀ (s t : String) (cs ct : CellCoordinate),
      ':' ∉ s.toList → ':' ∉ t.toList →
      cellRefToCoordinate s = .ok cs → cellRefToCoordinate t = .ok ct →
      parseRange (s ++ ":" ++ t) = .ok ⟨cs.col, cs.row, ct.col, ct.row⟩) ∧
    (∀ (ws : Worksheet) (r : CellRange), r.endRow < r.startRow →
      validateCellCounts ws r = (0, 0)) := by
  refine ⟨by decide, ?_, ?_⟩
  · intro s t cs ct hs ht hcs hct
    have hdata : (s ++ ":" ++ t).toList = s.toList ++ ':' :: t.toList := by
      simp [String.toList, String.data_append]
    rw [parseRange, hdata, splitOnChar_append ':' _ _ hs, splitOnChar_no_sep ':' _ ht]
    simp only [string_mk_toList, hcs, hct]
  · intro ws r h
    have hempty : intRange r.startRow r.endRow = [] := by
      rw [intRange, Int.toNat_of_nonpos (by omega)]
      rfl
    rw [validateCellCounts, hempty]
    rfl

/-- Witness for claim C5: the general positional-assembly part applied to
`"C3"` and `"A1"`, and the zero-iteration part applied to the resulting
reversed rectangle on `sheetA`. -/
theorem claim_c5_witness :
    parseRange ("C3" ++ ":" ++ "A1") = .ok ⟨3, 3, 1, 1⟩ ∧
    validateCellCounts sheetA ⟨3, 3, 1, 1⟩ = (0, 0) :=
  ⟨claim_c5.2.1 "C3" "A1" ⟨3, 3⟩ ⟨1, 1⟩ (by decide) (by decide) (by decide) (by decide),
   claim_c5.2.2 sheetA ⟨3, 3, 1, 1⟩ (by decide)⟩

/-- Claim C6, counterexample: the range string `"A1-C3"` the claim gives as
unparsable in fact parses — the lenient regexes of `cellRefToCoordinate`
read it as cell A1 — and `handleValidateExcelRange` answers with a
"Range … is valid" report, not with a failure explanation. -/
theorem claim_c6_counterexample :
    parseCellOrRange "A1-C3" = .ok ⟨1, 1, 1, 1⟩ ∧
    handleValidateExcelRange "" ⟨"/t.xlsx", none, "A1-C3", none⟩ cacheA diskEmpty
      = .ok ({ content :=
          [⟨"text", "Range A1-C3 is valid. Cell count: 1, Cells with data: 0"⟩] }, cacheA) :=
  ⟨by decide, rfl⟩

/-- Claim C6 as amended: on an existing file and worksheet, whenever the
range parsing step of `validate_excel_range` actually throws (e.g. a range
string with no digits, not `"A1-C3"`, which parses as A1), the handler
returns a normal non-error text response explaining the failure instead of
propagating the error. -/
theorem claim_c6_amended (basePath : String) (args : ValidateExcelRangeArgs)
    (cache : WorkbookCache) (disk : Disk) (wb : Workbook) (cache₂ : WorkbookCache)
    (ws : Worksheet) (err : McpError)
    (hload : loadWorkbook (getExcelPath basePath args.filePath) cache disk = .ok (wb, cache₂))
    (hws : getWorksheet wb args.sheetName = .ok ws)
    (hparse : validateRangeParse args.startCell args.endCell = .error err) :
    handleValidateExcelRange basePath args cache disk
      = .ok ({ content :=
          [⟨"text", "Invalid range format: " ++ jsErrorMessage err⟩] }, cache₂) := by
  rw [handleValidateExcelRange]
  simp only [hload, hws, hparse]

/-- Witness for the amended claim C6: the unparsable range string `"!!!"`
yields the soft textual failure. -/
theorem claim_c6_witness :
    loadWorkbook (getExcelPath "" "/t.xlsx") cacheA diskEmpty = .ok (wbA, cacheA) ∧
    getWorksheet wbA none = .ok sheetA ∧
    validateRangeParse "!!!" none = .error ⟨.invalidParams, "無効なセル参照形式: !!!"⟩ ∧
    handleValidateExcelRange "" ⟨"/t.xlsx", none, "!!!", none⟩ cacheA diskEmpty
      = .ok ({ content :=
          [⟨"text", "Invalid range format: MCP error -32602: 無効なセル参照形式: !!!"⟩] },
        cacheA) :=
  ⟨rfl, rfl, by decide,
   claim_c6_amended "" ⟨"/t.xlsx", none, "!!!", none⟩ cacheA diskEmpty wbA cacheA sheetA
     ⟨.invalidParams, "無効なセル参照形式: !!!"⟩ rfl rfl (by decide)⟩

/-- Claim C8: on an existing file and worksheet, with a parsable data range
and an accepted aggregation function, `handleCreatePivotTable` builds no
pivot table at all: the workbook handle is left exactly as loaded, that
untouched handle is what gets persisted to the path, and the response is a
success text echoing dataRange, rows, columns, values and the resolved
aggregation function. -/
theorem claim_c8 (basePath : String) (args : CreatePivotTableArgs)
    (cache : WorkbookCache) (disk : Disk) (wb : Workbook) (cache₂ : WorkbookCache)
    (ws : Worksheet) (rng : CellRange)
    (hload : loadWorkbook (getExcelPath basePath args.filePath) cache disk = .ok (wb, cache₂))
    (hws : getWorksheet wb args.sheetName = .ok ws)
    (hrange : parseCellOrRange args.dataRange = .ok rng)
    (hagg : (validateAggFunc (args.aggFunc.getD "sum")).valid = true) :
    handleCreatePivotTable basePath args cache disk
      = .ok ({ content :=
          [⟨"text", pivotSuccessText args (validateAggFunc (args.aggFunc.getD "sum"))⟩] },
        cache₂, writeFile disk (getExcelPath basePath args.filePath) wb) := by
  rw [handleCreatePivotTable]
  simp only [hload, hws, hrange, hagg]
  rfl

/-- Witness for claim C8: creating a pivot table over `"A1:B2"` on the
cached workbook `wbA` persists `wbA` unchanged and echoes the arguments. -/
theorem claim_c8_witness :
    loadWorkbook (getExcelPath "" "/t.xlsx") cacheA diskEmpty = .ok (wbA, cacheA) ∧
    getWorksheet wbA none = .ok sheetA ∧
    parseCellOrRange "A1:B2" = .ok ⟨1, 1, 2, 2⟩ ∧
    (validateAggFunc "sum").valid = true ∧
    handleCreatePivotTable ""
        ⟨"/t.xlsx", none, "A1:B2", ["Region"], ["Sales"], none, none⟩ cacheA diskEmpty
      = .ok ({ content :=
          [⟨"text", pivotSuccessText
            ⟨"/t.xlsx", none, "A1:B2", ["Region"], ["Sales"], none, none⟩
            (validateAggFunc "sum")⟩] },
        cacheA, writeFile diskEmpty "/t.xlsx" wbA) :=
  by
  refine ⟨rfl, rfl, by decide, by decide, ?_⟩
  exact claim_c8 "" ⟨"/t.xlsx", none, "A1:B2", ["Region"], ["Sales"], none, none⟩
    cacheA diskEmpty wbA cacheA sheetA ⟨1, 1, 2, 2⟩ rfl rfl (by decide) (by decide)

/-- The inner column fold of `readRangeData`, with its `hasData` flag, is
the flagless row-object fold paired with "some cell in the row is
non-null". -/
theorem pairFold_eq (ws : Worksheet) (headers : List (Option Value)) (startCol row : Int) :
    ∀ (cols : List Int) (obj : List (String × Value)) (flag : Bool),
      cols.foldl
        (fun (acc : List (String × Value) × Bool) col =>
          match ws.cells row col with
          | some v => (jsSet acc.1 (headerKeyFor headers startCol col) v, true)
          | none => acc)
        (obj, flag)
      = (cols.foldl
          (fun obj col =>
            match ws.cells row col with
            | some v => jsSet obj (headerKeyFor headers startCol col) v
            | none => obj)
          obj,
        flag || cols.any (fun col => (ws.cells row col).isSome)) := by
  intro cols
  induction cols with
  | nil =>
    intro obj flag
    simp
  | cons c rest ih =>
    intro obj flag
    simp only [List.foldl_cons, List.any_cons]
    cases h : ws.cells row c with
    | some v =>
      simp only [h]
      rw [ih]
      simp
    | none =>
      simp only [h]
      rw [ih]
      simp

/-- The outer row fold of `readRangeData` is append of filter-then-map:
rows with some non-null cell contribute their row object in order, rows
with none are dropped. -/
theorem readFold_eq (ws : Worksheet) (headers : List (Option Value)) (startCol endCol : Int) :
    ∀ (rows : List Int) (data : List (List (String × Value))),
      rows.foldl
        (fun data row =>
          if ((intRange startCol endCol).foldl
              (fun (acc : List (String × Value) × Bool) col =>
                match ws.cells row col with
                | some v => (jsSet acc.1 (headerKeyFor headers startCol col) v, true)
                | none => acc)
              ([], false)).2 then
            data ++ [((intRange startCol endCol).foldl
              (fun (acc : List (String × Value) × Bool) col =>
                match ws.cells row col with
                | some v => (jsSet acc.1 (headerKeyFor headers startCol col) v, true)
                | none => acc)
              ([], false)).1]
          else data)
        data
      = data ++ (rows.filter (fun row =>
            (intRange startCol endCol).any (fun col => (ws.cells row col).isSome))).map
          (fun row =>
            (intRange startCol endCol).foldl
              (fun obj col =>
                match ws.cells row col with
                | some v => jsSet obj (headerKeyFor headers startCol col) v
                | none => obj)
              []) := by
  intro rows
  induction rows with
  | nil =>
    intro data
    simp
  | cons r rest ih =>
    intro data
    simp only [List.foldl_cons]
    rw [pairFold_eq]
    cases hP : (intRange startCol endCol).any (fun col => (ws.cells r col).isSome) with
    | true =>
      simp only [hP, Bool.false_or, if_true, List.filter_cons, List.map_cons]
      rw [ih]
      simp [List.append_assoc]
    | false =>
      simp only [hP, Bool.false_or, Bool.false_eq_true, if_false, List.filter_cons]
      rw [ih]

/-- Claim C4, counterexample: with the header cell holding the number `0`
(a non-empty cell) and one data cell below it, the code labels the value
`"Column1"` (JS falsiness of `0`), while the header rule of the claim — a
synthesized label only for an *empty* header cell — demands the label
`"0"`. -/
theorem claim_c4_counterexample :
    readRangeData sheetC4 1 1 2 1 = [[("Column1", Value.num 5)]] ∧
    readRangeDataSpecC4 sheetC4 1 1 2 1 = [[("0", Value.num 5)]] ∧
    readRangeData sheetC4 1 1 2 1 ≠ readRangeDataSpecC4 sheetC4 1 1 2 1 := by
  refine ⟨by decide, by decide, by decide⟩

/-- Claim C4 as amended (header labels are synthesized for empty *or
otherwise falsy* header cells, e.g. `0` or `""`; the rest as claimed): the
read loop consumes the first row as headers and returns, in order, exactly
one row object per subsequent row that has at least one non-null cell —
each such object mapping the header key of every non-null cell to its
value — and drops rows whose cells are all null; in particular a range
whose data rows are all-null yields the empty list. -/
theorem claim_c4_amended (ws : Worksheet) (startRow startCol endRow endCol : Int) :
    readRangeData ws startRow startCol endRow endCol
      = ((intRange (startRow + 1) endRow).filter (rowHasData ws startCol endCol)).map
          (readRowObject ws startRow startCol endCol) ∧
    ((∀ row ∈ intRange (startRow + 1) endRow, ∀ col ∈ intRange startCol endCol,
        ws.cells row col = none) →
      readRangeData ws startRow startCol endRow endCol = []) := by
  have hmain : readRangeData ws startRow startCol endRow endCol
      = ((intRange (startRow + 1) endRow).filter (fun row =>
            (intRange startCol endCol).any (fun col => (ws.cells row col).isSome))).map
          (fun row =>
            (intRange startCol endCol).foldl
              (fun obj col =>
                match ws.cells row col with
                | some v => jsSet obj (headerKeyFor (readHeaders ws startRow startCol endCol) startCol col) v
                | none => obj)
              []) := by
    simp only [readRangeData]
    rw [readFold_eq]
    simp
  constructor
  · rw [hmain]
    rfl
  · intro h
    rw [hmain]
    have hfil : (intRange (startRow + 1) endRow).filter (fun row =>
        (intRange startCol endCol).any (fun col => (ws.cells row col).isSome)) = [] := by
      rw [List.filter_eq_nil_iff]
      intro r hr hany
      obtain ⟨c, hc, hs⟩ := List.any_eq_true.1 hany
      rw [h r hr c hc] at hs
      simp at hs
    rw [hfil]
    rfl

/-- Witness for the amended claim C4: a 2-row, 1-column range over the
all-empty worksheet (its only data row is all-null) yields the empty data
list. -/
theorem claim_c4_witness :
    (∀ row ∈ intRange 2 2, ∀ col ∈ intRange 1 1, sheetEmpty.cells row col = none) ∧
    readRangeData sheetEmpty 1 1 2 1 = [] :=
  ⟨by decide, (claim_c4_amended sheetEmpty 1 1 2 1).2 (by decide)⟩

end ExcelMcp
